import Mathlib

/-!
# Verification of the deposition molecular-dynamics controller

A shallow embedding, over exact rational arithmetic, of the core routines of the
`deposition` package: periodic-boundary structural analysis
(`deposition/structural_analysis.py`), randomised particle injection
(`deposition/randomisation.py`, `deposition/distributions.py`), the checkpoint
store (`deposition/status.py`), and the outer control loop
(`deposition/deposition.py`).

Floating-point numbers are modelled as rationals; the comparison
`np.linalg.norm(s) < cutoff` is modelled on squared distances, which is
equivalent over the reals (see `norm_lt_iff_sqrt_lt`).  Stochastic draws
(`np.random.normal`, `np.random.uniform`) and the matplotlib point-in-polygon
test are modelled as oracle streams supplied as explicit arguments, so all
statements are universally quantified over the randomness.
-/

namespace DepositionMD

/-- A 3-vector of rational coordinates, standing for one row of an `np.array`
of shape `(3,)` (x, y, z components). -/
structure Vec3 where
  x : ℚ
  y : ℚ
  z : ℚ
deriving DecidableEq

def Vec3.add (a b : Vec3) : Vec3 := ⟨a.x + b.x, a.y + b.y, a.z + b.z⟩

def Vec3.sub (a b : Vec3) : Vec3 := ⟨a.x - b.x, a.y - b.y, a.z - b.z⟩

/-- Integer scalar multiple of a vector (`x * x_shift` with integer `x`). -/
def Vec3.zsmul (n : ℤ) (a : Vec3) : Vec3 := ⟨n * a.x, n * a.y, n * a.z⟩

/-- Rational scalar multiple of a vector (`velocities_new * velocity_scaling`). -/
def Vec3.qsmul (q : ℚ) (a : Vec3) : Vec3 := ⟨q * a.x, q * a.y, q * a.z⟩

instance : Add Vec3 := ⟨Vec3.add⟩

instance : Sub Vec3 := ⟨Vec3.sub⟩

/-- Squared Euclidean norm of a vector. -/
def Vec3.normSq (a : Vec3) : ℚ := a.x * a.x + a.y * a.y + a.z * a.z

/-- The simulation cell dictionary (`simulation_cell` in the source): axis
bounds, the triclinic tilt factors, and the three lattice shift vectors. -/
structure SimulationCell where
  x_min : ℚ
  x_max : ℚ
  y_min : ℚ
  y_max : ℚ
  z_min : ℚ
  z_max : ℚ
  tilt_xy : ℚ
  tilt_xz : ℚ
  tilt_yz : ℚ
  x_vector : Vec3
  y_vector : Vec3
  z_vector : Vec3
deriving DecidableEq

/-- Python `max` over a list: `none` on the empty list (where CPython raises
`ValueError: max() arg is an empty sequence`). -/
def pymax : List ℚ → Option ℚ
  | [] => none
  | a :: l => some (l.foldl max a)

/-- Python `min` over a list: `none` on the empty list. -/
def pymin : List ℚ → Option ℚ
  | [] => none
  | a :: l => some (l.foldl min a)

/-- `structural_analysis.get_surface_height`: the maximum z-coordinate among
particles whose z lies strictly below `percentage_of_box_to_search`% of the
cell z-extent.  `none` models the `ValueError` raised by `max([])` when no
particle lies below the cutoff. -/
def get_surface_height (simulation_cell : SimulationCell) (coordinates : List Vec3)
    (percentage_of_box_to_search : ℚ := 80) : Option ℚ :=
  let lz := simulation_cell.z_max - simulation_cell.z_min
  let cutoff := lz * (percentage_of_box_to_search / 100)
  pymax ((coordinates.filter (fun v => v.z < cutoff)).map Vec3.z)

/-- `structural_analysis.wrap_periodic_coordinates_in_z`: coordinates whose
z-component exceeds `cutoff_percentage`% of the cell z-extent are shifted to
their periodic image in the cell below by subtracting `z_vector`. -/
def wrap_periodic_coordinates_in_z (simulation_cell : SimulationCell)
    (coordinates : List Vec3) (cutoff_percentage : ℚ := 80) : List Vec3 :=
  let lz := simulation_cell.z_max - simulation_cell.z_min
  let cutoff := lz * (cutoff_percentage / 100)
  coordinates.map (fun v =>
    if cutoff < v.z then v - simulation_cell.z_vector else v)

/-- `structural_analysis.generate_periodic_images_xy`: the input followed by a
copy shifted by `x*x_vector + y*y_vector` for every `(x, y)` with
`-num_copies ≤ x, y ≤ num_copies` other than `(0, 0)`, in the row-major order
of `np.ndindex`. -/
def generate_periodic_images_xy (simulation_cell : SimulationCell)
    (coordinates : List Vec3) (num_copies : ℕ := 1) : List Vec3 :=
  let x_shift := simulation_cell.x_vector
  let y_shift := simulation_cell.y_vector
  let total_copies := num_copies * 2 + 1
  (List.range total_copies).foldl (fun acc ix =>
    (List.range total_copies).foldl (fun acc2 iy =>
      let xi : ℤ := (ix : ℤ) - (num_copies : ℤ)
      let yi : ℤ := (iy : ℤ) - (num_copies : ℤ)
      if xi ≠ 0 ∨ yi ≠ 0 then
        acc2 ++ coordinates.map
          (fun v => v + (Vec3.zsmul xi x_shift + Vec3.zsmul yi y_shift))
      else acc2) acc) coordinates

/-- The comparison `np.linalg.norm s < c` expressed on squared rational
distances: equivalent to the real-valued comparison, see
`norm_lt_iff_sqrt_lt`. -/
def norm_lt (s : Vec3) (c : ℚ) : Bool :=
  decide (0 < c) && decide (s.normSq < c * c)

/-- `structural_analysis.generate_neighbour_list`: after wrapping in z and
generating the xy periodic images, count for every wrapped particle the image
atoms strictly within `bonding_distance_cutoff`. -/
def generate_neighbour_list (simulation_cell : SimulationCell)
    (coordinates : List Vec3) (bonding_distance_cutoff : ℚ) : List ℕ :=
  let wrapped := wrap_periodic_coordinates_in_z simulation_cell coordinates
  let coordinates_periodic_xy := generate_periodic_images_xy simulation_cell wrapped
  wrapped.map (fun reference =>
    coordinates_periodic_xy.countP
      (fun atom => norm_lt (reference - atom) bonding_distance_cutoff))

/-- Error message of `check_min_neighbours` (`RuntimeWarning`). -/
def too_few_neighbours_msg : String := "one or more atoms has too few neighbouring atoms"

/-- Error message of `check_min_neighbours` for an unknown deposition type
(`ValueError`). -/
def unrecognised_type_msg : String := "deposition type not recognised"

/-- `structural_analysis.check_min_neighbours`: minimum 1 neighbour for
`monatomic`, 2 for `diatomic`, 0 for `molecule`, `ValueError` otherwise;
raises `RuntimeWarning` when any particle has a neighbour count at or below
the minimum. -/
def check_min_neighbours (simulation_cell : SimulationCell) (coordinates : List Vec3)
    (deposition_type : String) (bonding_distance_cutoff : ℚ) : Except String Unit :=
  if deposition_type = "monatomic" ∨ deposition_type = "diatomic" ∨
      deposition_type = "molecule" then
    let min_neighbours : ℕ :=
      if deposition_type = "monatomic" then 1
      else if deposition_type = "diatomic" then 2
      else 0
    let neighbour_list :=
      generate_neighbour_list simulation_cell coordinates bonding_distance_cutoff
    if neighbour_list.any (fun n => n ≤ min_neighbours) then
      .error too_few_neighbours_msg
    else
      .ok ()
  else
    .error unrecognised_type_msg

/-- Error message of `check_bonding_at_image` (`RuntimeWarning`). -/
def bonded_to_image_msg : String := "one or more deposited atoms has bonded to the lower interface"

/-- `structural_analysis.check_bonding_at_image`: after the z-wrap, fails when
any particle of the deposited species has wrapped z within (inclusive)
`bonding_distance_cutoff` of the minimum wrapped z-coordinate.  `min` over an
empty coordinate list raises `ValueError`, modelled as a distinct error. -/
def check_bonding_at_image (simulation_cell : SimulationCell) (coordinates : List Vec3)
    (elements : List String) (deposited_element : String)
    (bonding_distance_cutoff : ℚ) : Except String Unit :=
  let wrapped := wrap_periodic_coordinates_in_z simulation_cell coordinates
  let deposited_coordinates_z :=
    (elements.zip wrapped).filterMap
      (fun p => if p.1 = deposited_element then some p.2.z else none)
  match pymin (wrapped.map Vec3.z) with
  | none => .error "min() arg is an empty sequence"
  | some min_z =>
    if deposited_coordinates_z.any
        (fun zc => |zc - min_z| ≤ bonding_distance_cutoff) then
      .error bonded_to_image_msg
    else
      .ok ()

/-- The eight integer shift pairs `(x, y)` visited by
`np.ndindex(3, 3)` with `num_copies = 1`, in row-major order, skipping
`(0, 0)`. -/
def xy_shift_pairs : List (ℤ × ℤ) :=
  [(-1, -1), (-1, 0), (-1, 1), (0, -1), (0, 1), (1, -1), (1, 0), (1, 1)]

/-- The eight xy shift vectors `x*x_vector + y*y_vector` generated by
`generate_periodic_images_xy` with `num_copies = 1`, in visit order. -/
def xy_shift_vectors (simulation_cell : SimulationCell) : List Vec3 :=
  xy_shift_pairs.map (fun ij =>
    Vec3.zsmul ij.1 simulation_cell.x_vector + Vec3.zsmul ij.2 simulation_cell.y_vector)

/-- A concrete orthogonal 10×10×10 simulation cell used to instantiate
universally quantified theorems. -/
def sample_cell : SimulationCell :=
  ⟨0, 10, 0, 10, 0, 10, 0, 0, 0, ⟨10, 0, 0⟩, ⟨0, 10, 0⟩, ⟨0, 0, 10⟩⟩

namespace DepositionPy

/-- The mutable status of `deposition.py` (class `Status` there): iteration
counter, failure counters and the reference to the last saved state. -/
structure Status where
  iteration_number : ℕ
  sequential_failures : ℕ
  total_failures : ℕ
  pickle_location : String
deriving DecidableEq

/-- One pass of the body of `Deposition.run`'s `while True` loop: run one
`Iteration` (its outcome `(success, pickle_location)` is supplied by the
oracle `iteration_outcome`, indexed by the iteration number), update the
failure counters, and increment the iteration number. -/
def next_status (iteration_outcome : ℕ → Bool × String) (status : Status) : Status where
  iteration_number := status.iteration_number + 1
  sequential_failures :=
    if (iteration_outcome status.iteration_number).1 then 0
    else status.sequential_failures + 1
  total_failures :=
    if (iteration_outcome status.iteration_number).1 then status.total_failures
    else status.total_failures + 1
  pickle_location := (iteration_outcome status.iteration_number).2

/-- `Deposition.run`: loop until either the iteration number exceeds
`max_iterations` (exit code 0, checked first) or the sequential failure count
exceeds `max_failures` (exit code 1).  Returns the exit code and the final
status. -/
def run (iteration_outcome : ℕ → Bool × String) (max_iterations max_failures : ℕ)
    (status : Status) : ℕ × Status :=
  if max_iterations < (next_status iteration_outcome status).iteration_number then
    (0, next_status iteration_outcome status)
  else if max_failures < (next_status iteration_outcome status).sequential_failures then
    (1, next_status iteration_outcome status)
  else
    run iteration_outcome max_iterations max_failures (next_status iteration_outcome status)
termination_by max_iterations + 1 - status.iteration_number
decreasing_by
  simp [next_status] at *
  omega

/-- An iteration oracle that reports every iteration as failing validation. -/
def always_fail : ℕ → Bool × String := fun _ => (false, "state.pickle")

end DepositionPy

namespace StatusPy

/-- Values appearing in the `status.yaml` document: integers, strings, and
`datetime` timestamps. -/
inductive YamlValue where
  | intVal : ℤ → YamlValue
  | strVal : String → YamlValue
  | timeVal : ℕ → YamlValue
deriving DecidableEq

/-- The checkpoint record of `deposition/status.py` (class `Status`). -/
structure Status where
  iteration_number : ℤ
  sequential_failures : ℤ
  total_failures : ℤ
  pickle_location : String
  last_updated : YamlValue
deriving DecidableEq

/-- `Status.as_dict`: the key-value document written to `status.yaml`
(keys from `StatusEnum`). -/
def Status.as_dict (s : Status) : List (String × YamlValue) :=
  [("iteration_number", .intVal s.iteration_number),
   ("sequential_failures", .intVal s.sequential_failures),
   ("total_failures", .intVal s.total_failures),
   ("pickle_location", .strVal s.pickle_location),
   ("last_updated", s.last_updated)]

/-- `Status.write`: set `last_updated = dt.now()`, then `yaml.dump` the
dictionary.  The YAML layer (`yaml.dump` followed by `yaml.safe_load`) is
modelled as the identity on the key-value document, which is what it is for
documents of integers, strings and timestamps. -/
def Status.write (s : Status) (now : ℕ) : List (String × YamlValue) :=
  Status.as_dict { s with last_updated := .timeVal now }

/-- Python `int(v)` applied to a loaded YAML value.  (On the documents
produced by `Status.write` only the integer case is ever reached; the other
cases model `TypeError`/`ValueError`.) -/
def py_int : YamlValue → Except String ℤ
  | .intVal n => .ok n
  | .strVal _ => .error "invalid int literal"
  | .timeVal _ => .error "int of datetime"

/-- Python `str(v)` applied to a loaded YAML value. -/
def py_str : YamlValue → String
  | .intVal n => toString n
  | .strVal s => s
  | .timeVal t => toString t

/-- Dictionary access `status[key]`; a missing key raises `KeyError`. -/
def lookup_key (document : List (String × YamlValue)) (key : String) :
    Except String YamlValue :=
  match document.lookup key with
  | some v => .ok v
  | none => .error key

/-- `Status.from_file`: load the document and rebuild a `Status`, applying
`int(...)` to the three counters and `str(...)` to the pickle location. -/
def Status.from_file (document : List (String × YamlValue)) : Except String Status := do
  let it ← py_int (← lookup_key document "iteration_number")
  let seq ← py_int (← lookup_key document "sequential_failures")
  let tot ← py_int (← lookup_key document "total_failures")
  let pick ← lookup_key document "pickle_location"
  let lu ← lookup_key document "last_updated"
  .ok ⟨it, seq, tot, py_str pick, lu⟩

end StatusPy

/-- The rejection loop inside `randomisation.random_velocity`: draw
`vz = abs(velocity_from_normal_distribution(...))` (the stream `draws`, whose
index `i` is the position in the overall draw sequence) until `vz >
minimum_velocity`, for at most `fuel` further attempts. -/
def random_velocity_loop (draws : ℕ → ℚ) (minimum_velocity : ℚ) :
    ℕ → ℕ → Option ℚ
  | _, 0 => none
  | i, fuel + 1 =>
    if minimum_velocity < |draws i| then some (|draws i|)
    else random_velocity_loop draws minimum_velocity (i + 1) fuel

/-- Error message (`ValueError`) of `random_velocity`. -/
def velocity_generation_failed_msg : String :=
  "failed to generate a velocity greater than the specified minimum"

/-- `randomisation.random_velocity`: `vx` and `vy` are the first two normal
draws; the loop then rejection-samples `vz = abs(draw)` until it exceeds
`minimum_velocity`, capping at `max_iterations` attempts, and the returned
vector is `(vx, vy, -vz)`.  The stochastic
`physics.velocity_from_normal_distribution` (temperature, mass and the
Box-Muller machinery) is modelled by the oracle stream `draws`. -/
def random_velocity (draws : ℕ → ℚ) (minimum_velocity : ℚ)
    (max_iterations : ℕ := 10000) : Except String Vec3 :=
  match random_velocity_loop draws minimum_velocity 2 max_iterations with
  | some vz => .ok ⟨draws 0, draws 1, -vz⟩
  | none => .error velocity_generation_failed_msg

/-- The rejection loop inside `UniformPositionDistribution.get_position`:
sample a point in the bounding box (the stream `samples`), accept the first
one inside the polygon (`contains_point`, modelling
`matplotlib.path.Path.contains_point`), for at most `fuel` attempts. -/
def get_position_loop (contains_point : ℚ × ℚ → Bool) (samples : ℕ → ℚ × ℚ) :
    ℕ → ℕ → Option (ℚ × ℚ)
  | _, 0 => none
  | i, fuel + 1 =>
    if contains_point (samples i) then some (samples i)
    else get_position_loop contains_point samples (i + 1) fuel

/-- Error message (`RuntimeError`) of `UniformPositionDistribution.get_position`. -/
def position_generation_failed_msg : String :=
  "generation of random position failed"

/-- `distributions.UniformPositionDistribution.get_position`: rejection-sample
within the polygon's bounding box for at most `max_iterations` attempts,
returning `(x, y, z)` on acceptance and raising `RuntimeError` otherwise.
The uniform bounding-box sampler and the polygon containment test are
modelled by the oracles `samples` and `contains_point`. -/
def UniformPositionDistribution.get_position (contains_point : ℚ × ℚ → Bool)
    (samples : ℕ → ℚ × ℚ) (z : ℚ) (max_iterations : ℕ := 10000) :
    Except String Vec3 :=
  match get_position_loop contains_point samples 0 max_iterations with
  | some p => .ok ⟨p.1, p.2, z⟩
  | none => .error position_generation_failed_msg

/-- The settings read by `randomisation.append_new_coordinates_and_velocities`. -/
structure DepositionSettings where
  num_deposited_per_iteration : ℕ
  deposition_type : String
  deposition_element : String
  diatomic_bond_length_Angstroms : ℚ
  deposition_height_Angstroms : ℚ
  deposition_temperature_Kelvin : ℚ
  minimum_deposition_velocity : ℚ

/-- Oracles for the stochastic calls made during one injection run, indexed by
the insertion-event number `ii`:
`position_point ii` is the point found by `maths.get_random_point_in_polygon`
(`none` models that uncapped rejection loop never returning),
`velocity_draws ii` is the stream of normal draws consumed by
`random_velocity`, and `rotation_draws ii` are the two rotational draws of
`random_diatomic_velocities`. -/
structure RandomOracle where
  position_point : ℕ → Option (ℚ × ℚ)
  velocity_draws : ℕ → ℕ → ℚ
  rotation_draws : ℕ → ℚ × ℚ

/-- `randomisation.random_position`: the polygon construction plus
`maths.get_random_point_in_polygon`; the accepted point is supplied by the
oracle and the result is `(x, y, new_z_position)`. -/
def random_position (simulation_cell : SimulationCell) (new_z_position : ℚ)
    (point : Option (ℚ × ℚ)) : Option Vec3 :=
  point.map (fun p => ⟨p.1, p.2, new_z_position⟩)

/-- `randomisation.random_diatomic_position`: centre the pair at a random
position and separate the two atoms by `bond_length` along x. -/
def random_diatomic_position (simulation_cell : SimulationCell)
    (new_z_position bond_length : ℚ) (point : Option (ℚ × ℚ)) :
    Option (Vec3 × Vec3) :=
  (random_position simulation_cell new_z_position point).map (fun c =>
    (⟨c.x + bond_length / 2, c.y, c.z⟩, ⟨c.x - bond_length / 2, c.y, c.z⟩))

/-- `randomisation.random_diatomic_velocities`: translational velocity from
`random_velocity` (for mass `2m`) plus/minus the tangential contributions of
the two rotational draws. -/
def random_diatomic_velocities (draws : ℕ → ℚ) (rotation : ℚ × ℚ)
    (bond_length minimum_velocity : ℚ) : Except String (Vec3 × Vec3) :=
  let tangential_xz := rotation.1 * (bond_length / 2)
  let tangential_xy := rotation.2 * (bond_length / 2)
  match random_velocity draws minimum_velocity with
  | .error e => .error e
  | .ok v =>
    .ok (⟨v.x, v.y + tangential_xz, v.z + tangential_xy⟩,
         ⟨v.x, v.y - tangential_xz, v.z - tangential_xy⟩)

/-- `np.mean(l, axis=0)` componentwise (division by zero on the empty list is
the rational convention `0`). -/
def vec3_mean (l : List Vec3) : Vec3 :=
  let s := l.foldl (· + ·) (⟨0, 0, 0⟩ : Vec3)
  ⟨s.x / l.length, s.y / l.length, s.z / l.length⟩

/-- `randomisation.random_molecule_position`: recentre the molecule template
about a randomly placed centroid. -/
def random_molecule_position (simulation_cell : SimulationCell)
    (new_z_position : ℚ) (molecule_coordinates : List Vec3)
    (point : Option (ℚ × ℚ)) : Option (List Vec3) :=
  (random_position simulation_cell new_z_position point).map (fun central =>
    let centre := vec3_mean molecule_coordinates
    molecule_coordinates.map (fun v => central + (v - centre)))

/-- `randomisation.random_molecule_velocities`: one translational velocity,
repeated for every atom of the molecule. -/
def random_molecule_velocities (draws : ℕ → ℚ) (minimum_velocity : ℚ)
    (num_atoms : ℕ) : Except String (List Vec3) :=
  (random_velocity draws minimum_velocity).map (List.replicate num_atoms)

/-- One insertion event of the `for ii in range(num_deposited)` loop of
`append_new_coordinates_and_velocities`: generate the new coordinates,
element labels and velocities for the configured deposition type.  The
molecule template `(molecule_coordinates, molecule_elements, num_atoms)` is
the value of `io.read_xyz(settings["molecule_xyz_file"])`.  An unrecognised
type leaves `coordinates_new` unbound (`NameError` in Python). -/
def deposit_event (settings : DepositionSettings)
    (simulation_cell : SimulationCell) (new_z_position : ℚ)
    (oracle : RandomOracle) (molecule_coordinates : List Vec3)
    (molecule_elements : List String) (num_atoms : ℕ) (ii : ℕ) :
    Except String (List Vec3 × List String × List Vec3) :=
  if settings.deposition_type = "monatomic" then
    match random_position simulation_cell new_z_position
        (oracle.position_point ii) with
    | none => .error "position sampling loops forever"
    | some c =>
      match random_velocity (oracle.velocity_draws ii)
          settings.minimum_deposition_velocity with
      | .error e => .error e
      | .ok v => .ok ([c], [settings.deposition_element], [v])
  else if settings.deposition_type = "diatomic" then
    match random_diatomic_position simulation_cell new_z_position
        settings.diatomic_bond_length_Angstroms (oracle.position_point ii) with
    | none => .error "position sampling loops forever"
    | some cs =>
      match random_diatomic_velocities (oracle.velocity_draws ii)
          (oracle.rotation_draws ii) settings.diatomic_bond_length_Angstroms
          settings.minimum_deposition_velocity with
      | .error e => .error e
      | .ok vs =>
        .ok ([cs.1, cs.2],
             [settings.deposition_element, settings.deposition_element],
             [vs.1, vs.2])
  else if settings.deposition_type = "molecule" then
    match random_molecule_position simulation_cell new_z_position
        molecule_coordinates (oracle.position_point ii) with
    | none => .error "position sampling loops forever"
    | some cs =>
      match random_molecule_velocities (oracle.velocity_draws ii)
          settings.minimum_deposition_velocity num_atoms with
      | .error e => .error e
      | .ok vs => .ok (cs, molecule_elements, vs)
  else
    .error "NameError"

/-- The `for ii in range(num_deposited)` loop of
`append_new_coordinates_and_velocities`: run the insertion events in order
(propagating the first raised error), appending new coordinates, elements and
scaled velocities (`np.vstack`, list concatenation) to the accumulated
state. -/
def inject_loop (settings : DepositionSettings) (simulation_cell : SimulationCell)
    (new_z_position velocity_scaling : ℚ) (oracle : RandomOracle)
    (molecule_coordinates : List Vec3) (molecule_elements : List String)
    (num_atoms : ℕ) :
    List ℕ → (List Vec3 × List String × List Vec3) →
    Except String (List Vec3 × List String × List Vec3)
  | [], acc => .ok acc
  | ii :: rest, acc =>
    match deposit_event settings simulation_cell new_z_position oracle
        molecule_coordinates molecule_elements num_atoms ii with
    | .error e => .error e
    | .ok new_pieces =>
      inject_loop settings simulation_cell new_z_position velocity_scaling oracle
        molecule_coordinates molecule_elements num_atoms rest
        (acc.1 ++ new_pieces.1, acc.2.1 ++ new_pieces.2.1,
         acc.2.2 ++ new_pieces.2.2.map (Vec3.qsmul velocity_scaling))

/-- `randomisation.append_new_coordinates_and_velocities`: compute the surface
height (raising if no particle lies below the cutoff), then run
`num_deposited_per_iteration` insertion events, appending the new
coordinates, elements and scaled velocities to the current state. -/
def append_new_coordinates_and_velocities (settings : DepositionSettings)
    (coordinates : List Vec3) (elements : List String) (velocities : List Vec3)
    (simulation_cell : SimulationCell) (velocity_scaling : ℚ)
    (oracle : RandomOracle) (molecule_coordinates : List Vec3)
    (molecule_elements : List String) (num_atoms : ℕ) :
    Except String (List Vec3 × List String × List Vec3) :=
  match get_surface_height simulation_cell coordinates with
  | none => .error "max() arg is an empty sequence"
  | some surface_height =>
    inject_loop settings simulation_cell
      (surface_height + settings.deposition_height_Angstroms) velocity_scaling
      oracle molecule_coordinates molecule_elements num_atoms
      (List.range settings.num_deposited_per_iteration)
      (coordinates, elements, velocities)

/-- The number of particles added per insertion event for each deposition
type: 1 for `monatomic`, 2 for `diatomic`, the template's atom count for
`molecule`. -/
def deposit_event_size (settings : DepositionSettings) (num_atoms : ℕ) : ℕ :=
  if settings.deposition_type = "monatomic" then 1
  else if settings.deposition_type = "diatomic" then 2
  else num_atoms

/-- Concrete monatomic settings used to instantiate universally quantified
theorems: one particle per iteration, deposition height 1, minimum velocity
0. -/
def sample_settings : DepositionSettings :=
  ⟨1, "monatomic", "O", 1, 1, 300, 0⟩

/-- A concrete oracle: the polygon sampler returns the origin, every normal
draw is 1. -/
def sample_oracle : RandomOracle :=
  ⟨fun _ => some (0, 0), fun _ _ => 1, fun _ => (0, 0)⟩

/-!
## Helper lemmas
-/

theorem Vec3.normSq_nonneg (a : Vec3) : 0 ≤ a.normSq := by
  have hx := mul_self_nonneg a.x
  have hy := mul_self_nonneg a.y
  have hz := mul_self_nonneg a.z
  unfold Vec3.normSq
  linarith

/-- The squared-distance test `norm_lt` coincides with the real-valued
comparison `np.linalg.norm s < c`. -/
theorem norm_lt_iff_sqrt_lt (s : Vec3) (c : ℚ) :
    norm_lt s c = true ↔ Real.sqrt ((s.normSq : ℚ) : ℝ) < ((c : ℚ) : ℝ) := by
  unfold norm_lt
  rcases le_or_lt c 0 with h | h
  · have hsqrt : (0 : ℝ) ≤ Real.sqrt ((s.normSq : ℚ) : ℝ) := Real.sqrt_nonneg _
    have hc : ((c : ℚ) : ℝ) ≤ 0 := by exact_mod_cast h
    constructor
    · intro hcontr
      simp only [Bool.and_eq_true, decide_eq_true_eq] at hcontr
      exact absurd hcontr.1 (not_lt.mpr h)
    · intro hcontr
      exact absurd (lt_of_le_of_lt hsqrt hcontr) (not_lt.mpr hc)
  · have hc : (0 : ℝ) < ((c : ℚ) : ℝ) := by exact_mod_cast h
    rw [Real.sqrt_lt' hc]
    simp only [Bool.and_eq_true, decide_eq_true_eq]
    constructor
    · intro hx
      have := hx.2
      rw [sq]
      exact_mod_cast this
    · intro hx
      refine ⟨h, ?_⟩
      rw [sq] at hx
      exact_mod_cast hx

theorem foldl_max_mem (l : List ℚ) (a : ℚ) : l.foldl max a ∈ a :: l := by
  induction l generalizing a with
  | nil => simp
  | cons b t ih =>
    have h := ih (max a b)
    simp only [List.foldl_cons]
    rcases List.mem_cons.mp h with h1 | h1
    · rw [h1]
      rcases max_choice a b with hm | hm <;> rw [hm]
      · exact List.mem_cons_self a (b :: t)
      · exact List.mem_cons_of_mem a (List.mem_cons_self b t)
    · exact List.mem_cons_of_mem a (List.mem_cons_of_mem b h1)

theorem le_foldl_max (l : List ℚ) (a : ℚ) : a ≤ l.foldl max a := by
  induction l generalizing a with
  | nil => simp
  | cons b t ih => exact le_trans (le_max_left a b) (ih (max a b))

theorem foldl_max_ub (l : List ℚ) (x : ℚ) (hx : x ∈ l) : ∀ a, x ≤ l.foldl max a := by
  induction l with
  | nil => simp at hx
  | cons b t ih =>
    intro a
    rcases List.mem_cons.mp hx with h1 | h1
    · subst h1
      simp only [List.foldl_cons]
      exact le_trans (le_max_right a x) (le_foldl_max t (max a x))
    · simp only [List.foldl_cons]
      exact ih h1 (max a b)

theorem pymax_spec (l : List ℚ) (m : ℚ) (h : pymax l = some m) :
    m ∈ l ∧ ∀ x ∈ l, x ≤ m := by
  match l, h with
  | a :: t, h =>
    have hm : t.foldl max a = m := by
      simpa [pymax] using h
    constructor
    · have := foldl_max_mem t a
      rw [hm] at this
      exact this
    · intro x hx
      rcases List.mem_cons.mp hx with h1 | h1
      · subst h1
        rw [← hm]
        exact le_foldl_max t x
      · rw [← hm]
        exact foldl_max_ub t x h1 a

theorem pymax_isSome (l : List ℚ) (h : l ≠ []) : ∃ m, pymax l = some m := by
  match l, h with
  | a :: t, _ => exact ⟨t.foldl max a, rfl⟩

theorem foldl_min_mem (l : List ℚ) (a : ℚ) : l.foldl min a ∈ a :: l := by
  induction l generalizing a with
  | nil => simp
  | cons b t ih =>
    have h := ih (min a b)
    simp only [List.foldl_cons]
    rcases List.mem_cons.mp h with h1 | h1
    · rw [h1]
      rcases min_choice a b with hm | hm <;> rw [hm]
      · exact List.mem_cons_self a (b :: t)
      · exact List.mem_cons_of_mem a (List.mem_cons_self b t)
    · exact List.mem_cons_of_mem a (List.mem_cons_of_mem b h1)

theorem foldl_min_le (l : List ℚ) (a : ℚ) : l.foldl min a ≤ a := by
  induction l generalizing a with
  | nil => simp
  | cons b t ih => exact le_trans (ih (min a b)) (min_le_left a b)

theorem foldl_min_lb (l : List ℚ) (x : ℚ) (hx : x ∈ l) : ∀ a, l.foldl min a ≤ x := by
  induction l with
  | nil => simp at hx
  | cons b t ih =>
    intro a
    rcases List.mem_cons.mp hx with h1 | h1
    · subst h1
      simp only [List.foldl_cons]
      exact le_trans (foldl_min_le t (min a x)) (min_le_right a x)
    · simp only [List.foldl_cons]
      exact ih h1 (min a b)

theorem pymin_spec (l : List ℚ) (m : ℚ) (h : pymin l = some m) :
    m ∈ l ∧ ∀ x ∈ l, m ≤ x := by
  match l, h with
  | a :: t, h =>
    have hm : t.foldl min a = m := by
      simpa [pymin] using h
    constructor
    · have := foldl_min_mem t a
      rw [hm] at this
      exact this
    · intro x hx
      rcases List.mem_cons.mp hx with h1 | h1
      · subst h1
        rw [← hm]
        exact foldl_min_le t x
      · rw [← hm]
        exact foldl_min_lb t x h1 a

theorem pymin_isSome (l : List ℚ) (h : l ≠ []) : ∃ m, pymin l = some m := by
  match l, h with
  | a :: t, _ => exact ⟨t.foldl min a, rfl⟩

theorem random_velocity_loop_some (draws : ℕ → ℚ) (m : ℚ) (i fuel : ℕ) (vz : ℚ)
    (h : random_velocity_loop draws m i fuel = some vz) :
    m < vz ∧ ∃ j, j < fuel ∧ vz = |draws (i + j)| := by
  induction fuel generalizing i with
  | zero => simp [random_velocity_loop] at h
  | succ n ih =>
    rw [random_velocity_loop] at h
    by_cases hc : m < |draws i|
    · rw [if_pos hc] at h
      have hvz : vz = |draws i| := (Option.some.inj h).symm
      exact ⟨hvz ▸ hc, 0, by omega, by simpa using hvz⟩
    · rw [if_neg hc] at h
      obtain ⟨hm, j, hj, hval⟩ := ih (i + 1) h
      refine ⟨hm, j + 1, by omega, ?_⟩
      rw [show i + (j + 1) = i + 1 + j by omega]
      exact hval

theorem random_velocity_loop_none (draws : ℕ → ℚ) (m : ℚ) (i fuel : ℕ)
    (h : ∀ j, j < fuel → |draws (i + j)| ≤ m) :
    random_velocity_loop draws m i fuel = none := by
  induction fuel generalizing i with
  | zero => rfl
  | succ n ih =>
    rw [random_velocity_loop]
    rw [if_neg]
    · refine ih (i + 1) (fun j hj => ?_)
      have := h (j + 1) (by omega)
      rwa [show i + (j + 1) = i + 1 + j by omega] at this
    · have := h 0 (by omega)
      simp only [Nat.add_zero] at this
      exact not_lt.mpr this

theorem get_position_loop_some (contains_point : ℚ × ℚ → Bool)
    (samples : ℕ → ℚ × ℚ) (i fuel : ℕ) (p : ℚ × ℚ)
    (h : get_position_loop contains_point samples i fuel = some p) :
    contains_point p = true ∧ ∃ j, j < fuel ∧ p = samples (i + j) := by
  induction fuel generalizing i with
  | zero => simp [get_position_loop] at h
  | succ n ih =>
    rw [get_position_loop] at h
    by_cases hc : contains_point (samples i) = true
    · rw [if_pos hc] at h
      have hp : p = samples i := (Option.some.inj h).symm
      exact ⟨hp ▸ hc, 0, by omega, by simpa using hp⟩
    · rw [if_neg hc] at h
      obtain ⟨hcp, j, hj, hval⟩ := ih (i + 1) h
      refine ⟨hcp, j + 1, by omega, ?_⟩
      rw [show i + (j + 1) = i + 1 + j by omega]
      exact hval

theorem get_position_loop_none_iff (contains_point : ℚ × ℚ → Bool)
    (samples : ℕ → ℚ × ℚ) (i fuel : ℕ) :
    get_position_loop contains_point samples i fuel = none ↔
      ∀ j, j < fuel → contains_point (samples (i + j)) = false := by
  induction fuel generalizing i with
  | zero => simp [get_position_loop]
  | succ n ih =>
    rw [get_position_loop]
    by_cases hc : contains_point (samples i) = true
    · rw [if_pos hc]
      constructor
      · intro hcontr
        cases hcontr
      · intro hall
        have := hall 0 (by omega)
        simp only [Nat.add_zero] at this
        rw [hc] at this
        cases this
    · rw [if_neg hc]
      rw [ih (i + 1)]
      constructor
      · intro hall j hj
        match j with
        | 0 =>
          simp only [Nat.add_zero]
          exact Bool.not_eq_true _ ▸ (by simpa using hc)
        | j + 1 =>
          have := hall j (by omega)
          rwa [show i + 1 + j = i + (j + 1) by omega] at this
      · intro hall j hj
        have := hall (j + 1) (by omega)
        rwa [show i + (j + 1) = i + 1 + j by omega] at this

/-!
## Claim theorems
-/

/-- C1: every velocity vector returned by `random_velocity` has a strictly
negative z-component whose magnitude exceeds `minimum_velocity`; and if no
draw with `|v_z| > minimum_velocity` occurs within 10,000 attempts the
sampler fails with an error instead of returning.  (The configuration schema
validates `minimum_velocity > 0`, hence the nonnegativity hypothesis.) -/
theorem c1_random_velocity_spec (draws : ℕ → ℚ) (minimum_velocity : ℚ)
    (hmin : 0 ≤ minimum_velocity) :
    (∀ v : Vec3, random_velocity draws minimum_velocity = .ok v →
       v.z < 0 ∧ minimum_velocity < |v.z|) ∧
    ((∀ j, j < 10000 → |draws (2 + j)| ≤ minimum_velocity) →
       random_velocity draws minimum_velocity = .error velocity_generation_failed_msg) := by
  constructor
  · intro v hv
    unfold random_velocity at hv
    cases hloop : random_velocity_loop draws minimum_velocity 2 10000 with
    | none =>
      rw [hloop] at hv
      cases hv
    | some vz =>
      rw [hloop] at hv
      obtain ⟨hm, _⟩ := random_velocity_loop_some draws _ _ _ _ hloop
      have hvz : 0 < vz := lt_of_le_of_lt hmin hm
      have hveq : v = ⟨draws 0, draws 1, -vz⟩ := (Except.ok.inj hv).symm
      rw [hveq]
      refine ⟨by simpa using hvz, ?_⟩
      show minimum_velocity < |(-vz)|
      rw [abs_neg, abs_of_pos hvz]
      exact hm
  · intro hall
    unfold random_velocity
    rw [random_velocity_loop_none draws minimum_velocity 2 10000 hall]

/-- Witness for C1: with the constant draw stream 1 and minimum velocity 0,
the sampler returns `(1, 1, -1)` and the theorem yields `-1 < 0` with
`0 < 1`. -/
theorem c1_random_velocity_spec_witness :
    (∀ v : Vec3, random_velocity (fun _ => 1) 0 = .ok v →
       v.z < 0 ∧ (0 : ℚ) < |v.z|) ∧
    ((∀ j, j < 10000 → |(1 : ℚ)| ≤ 0) →
       random_velocity (fun _ => 1) 0 = .error velocity_generation_failed_msg) :=
  c1_random_velocity_spec (fun _ => 1) 0 (by norm_num)

/-- C3: `UniformPositionDistribution.get_position` rejection-samples for at
most 10,000 attempts; it fails with an error exactly when no sampled point
within the first 10,000 lies inside the polygon (e.g. a zero-area polygon),
and on success it returns an accepted in-polygon sample at the requested
z-plane. -/
theorem c3_uniform_position_spec (contains_point : ℚ × ℚ → Bool)
    (samples : ℕ → ℚ × ℚ) (z : ℚ) :
    (UniformPositionDistribution.get_position contains_point samples z =
        .error position_generation_failed_msg ↔
      ∀ j, j < 10000 → contains_point (samples j) = false) ∧
    (∀ v : Vec3,
      UniformPositionDistribution.get_position contains_point samples z = .ok v →
      contains_point (v.x, v.y) = true ∧ v.z = z ∧
        ∃ j, j < 10000 ∧ (v.x, v.y) = samples j) := by
  constructor
  · constructor
    · intro herr
      unfold UniformPositionDistribution.get_position at herr
      cases hloop : get_position_loop contains_point samples 0 10000 with
      | none =>
        have := (get_position_loop_none_iff contains_point samples 0 10000).mp hloop
        intro j hj
        simpa using this j hj
      | some p =>
        rw [hloop] at herr
        cases herr
    · intro hall
      unfold UniformPositionDistribution.get_position
      have hnone : get_position_loop contains_point samples 0 10000 = none :=
        (get_position_loop_none_iff contains_point samples 0 10000).mpr
          (fun j hj => by simpa using hall j hj)
      rw [hnone]
  · intro v hv
    unfold UniformPositionDistribution.get_position at hv
    cases hloop : get_position_loop contains_point samples 0 10000 with
    | none =>
      rw [hloop] at hv
      cases hv
    | some p =>
      rw [hloop] at hv
      obtain ⟨hcp, j, hj, hval⟩ := get_position_loop_some contains_point samples 0 10000 p hloop
      have hveq : v = ⟨p.1, p.2, z⟩ := (Except.ok.inj hv).symm
      rw [hveq]
      refine ⟨by simpa using hcp, rfl, j, hj, ?_⟩
      simpa using hval

/-- Witness for C3: for the all-rejecting (zero-area) polygon the sampler
fails with the error after its 10,000-attempt cap. -/
theorem c3_uniform_position_spec_witness :
    UniformPositionDistribution.get_position (fun _ => false) (fun _ => (0, 0)) 5 =
      .error position_generation_failed_msg :=
  (c3_uniform_position_spec (fun _ => false) (fun _ => (0, 0)) 5).1.mpr
    (fun _ _ => rfl)

theorem deposition_run_result (f : ℕ → Bool × String) (a b : ℕ)
    (s : DepositionPy.Status) :
    ((DepositionPy.run f a b s).1 = 0 ∧
      a < (DepositionPy.run f a b s).2.iteration_number) ∨
    ((DepositionPy.run f a b s).1 = 1 ∧
      (DepositionPy.run f a b s).2.iteration_number ≤ a ∧
      b < (DepositionPy.run f a b s).2.sequential_failures) := by
  refine DepositionPy.run.induct f a b
    (motive := fun s =>
      ((DepositionPy.run f a b s).1 = 0 ∧
        a < (DepositionPy.run f a b s).2.iteration_number) ∨
      ((DepositionPy.run f a b s).1 = 1 ∧
        (DepositionPy.run f a b s).2.iteration_number ≤ a ∧
        b < (DepositionPy.run f a b s).2.sequential_failures)) ?_ ?_ ?_ s
  · intro s h1
    rw [DepositionPy.run, if_pos h1]
    exact Or.inl ⟨rfl, h1⟩
  · intro s h1 h2
    rw [DepositionPy.run, if_neg h1, if_pos h2]
    exact Or.inr ⟨rfl, not_lt.mp h1, h2⟩
  · intro s h1 h2 ih
    rw [DepositionPy.run, if_neg h1, if_neg h2]
    exact ih

theorem deposition_run_total_mono (f : ℕ → Bool × String) (a b : ℕ)
    (s : DepositionPy.Status) :
    s.total_failures ≤ (DepositionPy.run f a b s).2.total_failures := by
  refine DepositionPy.run.induct f a b
    (motive := fun s =>
      s.total_failures ≤ (DepositionPy.run f a b s).2.total_failures) ?_ ?_ ?_ s
  · intro s h1
    rw [DepositionPy.run, if_pos h1]
    simp [DepositionPy.next_status]
    split <;> omega
  · intro s h1 h2
    rw [DepositionPy.run, if_neg h1, if_pos h2]
    simp [DepositionPy.next_status]
    split <;> omega
  · intro s h1 h2 ih
    rw [DepositionPy.run, if_neg h1, if_neg h2]
    refine le_trans ?_ ih
    simp [DepositionPy.next_status]
    split <;> omega

/-- C2 (amended): per pass, success resets `sequential_failures` to 0 and
leaves `total_failures` unchanged; failure increments both;
`total_failures` is never reset (it is monotone over the whole run); the
exit code is 0 exactly when the final iteration number exceeds
`max_iterations`, and 1 exactly when it does not while the final sequential
failure count exceeds `max_failures` — when both budgets are exceeded by the
same iteration the max-iterations exit (code 0) takes precedence. -/
theorem c2_deposition_run_spec (f : ℕ → Bool × String) (a b : ℕ)
    (s : DepositionPy.Status) :
    ((f s.iteration_number).1 = true →
       (DepositionPy.next_status f s).sequential_failures = 0 ∧
       (DepositionPy.next_status f s).total_failures = s.total_failures) ∧
    ((f s.iteration_number).1 = false →
       (DepositionPy.next_status f s).sequential_failures = s.sequential_failures + 1 ∧
       (DepositionPy.next_status f s).total_failures = s.total_failures + 1) ∧
    (DepositionPy.next_status f s).iteration_number = s.iteration_number + 1 ∧
    s.total_failures ≤ (DepositionPy.run f a b s).2.total_failures ∧
    ((DepositionPy.run f a b s).1 = 0 ↔
      a < (DepositionPy.run f a b s).2.iteration_number) ∧
    ((DepositionPy.run f a b s).1 = 1 ↔
      ((DepositionPy.run f a b s).2.iteration_number ≤ a ∧
        b < (DepositionPy.run f a b s).2.sequential_failures)) := by
  refine ⟨?_, ?_, rfl, deposition_run_total_mono f a b s, ?_, ?_⟩
  · intro hs
    simp [DepositionPy.next_status, hs]
  · intro hs
    simp [DepositionPy.next_status, hs]
  · constructor
    · intro h0
      rcases deposition_run_result f a b s with ⟨_, h⟩ | ⟨h1, _⟩
      · exact h
      · rw [h0] at h1
        cases h1
    · intro hlt
      rcases deposition_run_result f a b s with ⟨h, _⟩ | ⟨_, hle, _⟩
      · exact h
      · exact absurd hlt (not_lt.mpr hle)
  · constructor
    · intro h1
      rcases deposition_run_result f a b s with ⟨h0, _⟩ | ⟨_, hle, hb⟩
      · rw [h1] at h0
        cases h0
      · exact ⟨hle, hb⟩
    · intro ⟨hle, _⟩
      rcases deposition_run_result f a b s with ⟨_, hlt⟩ | ⟨h1, _⟩
      · exact absurd hlt (not_lt.mpr hle)
      · exact h1

/-- Witness for C2 at a concrete oracle and starting status. -/
theorem c2_deposition_run_spec_witness :
    ((DepositionPy.always_fail 1).1 = true →
       (DepositionPy.next_status DepositionPy.always_fail ⟨1, 0, 0, "q"⟩).sequential_failures = 0 ∧
       (DepositionPy.next_status DepositionPy.always_fail ⟨1, 0, 0, "q"⟩).total_failures = 0) ∧
    ((DepositionPy.always_fail 1).1 = false →
       (DepositionPy.next_status DepositionPy.always_fail ⟨1, 0, 0, "q"⟩).sequential_failures = 0 + 1 ∧
       (DepositionPy.next_status DepositionPy.always_fail ⟨1, 0, 0, "q"⟩).total_failures = 0 + 1) ∧
    (DepositionPy.next_status DepositionPy.always_fail ⟨1, 0, 0, "q"⟩).iteration_number = 1 + 1 ∧
    0 ≤ (DepositionPy.run DepositionPy.always_fail 3 5 ⟨1, 0, 0, "q"⟩).2.total_failures ∧
    ((DepositionPy.run DepositionPy.always_fail 3 5 ⟨1, 0, 0, "q"⟩).1 = 0 ↔
      3 < (DepositionPy.run DepositionPy.always_fail 3 5 ⟨1, 0, 0, "q"⟩).2.iteration_number) ∧
    ((DepositionPy.run DepositionPy.always_fail 3 5 ⟨1, 0, 0, "q"⟩).1 = 1 ↔
      ((DepositionPy.run DepositionPy.always_fail 3 5 ⟨1, 0, 0, "q"⟩).2.iteration_number ≤ 3 ∧
        5 < (DepositionPy.run DepositionPy.always_fail 3 5 ⟨1, 0, 0, "q"⟩).2.sequential_failures)) :=
  c2_deposition_run_spec DepositionPy.always_fail 3 5 ⟨1, 0, 0, "q"⟩

/-- C9: writing a checkpoint with `Status.write` and reading it back with
`Status.from_file` yields a `Status` with identical `iteration_number`,
`sequential_failures`, `total_failures` and `pickle_location`. -/
theorem c9_status_round_trip (s : StatusPy.Status) (now : ℕ) :
    ∃ s2 : StatusPy.Status,
      StatusPy.Status.from_file (StatusPy.Status.write s now) = .ok s2 ∧
      s2.iteration_number = s.iteration_number ∧
      s2.sequential_failures = s.sequential_failures ∧
      s2.total_failures = s.total_failures ∧
      s2.pickle_location = s.pickle_location := by
  refine ⟨⟨s.iteration_number, s.sequential_failures, s.total_failures,
    s.pickle_location, .timeVal now⟩, ?_, rfl, rfl, rfl, rfl⟩
  rfl

theorem generate_periodic_images_xy_eq (cell : SimulationCell) (coords : List Vec3) :
    generate_periodic_images_xy cell coords =
      coords ++
        ((xy_shift_vectors cell).map (fun sh => coords.map (fun v => v + sh))).flatten := by
  have h3 : List.range 3 = [0, 1, 2] := rfl
  simp only [generate_periodic_images_xy, xy_shift_vectors, xy_shift_pairs]
  norm_num [h3, List.foldl_cons, List.foldl_nil]

/-- C6: z-wrapping subtracts exactly `z_vector` from each coordinate whose
z-component exceeds 80% of the cell z-extent and leaves every other
coordinate unchanged, preserving order and length; and xy periodic-image
generation with one copy returns exactly 9 images of the input: the original
list followed by the input shifted by `i*x_vector + j*y_vector` for each
integer pair `(i, j)` ranging over `{-1,0,1} x {-1,0,1}` without `(0, 0)`. -/
theorem c6_wrap_and_images_spec (cell : SimulationCell) (coords : List Vec3) :
    (wrap_periodic_coordinates_in_z cell coords).length = coords.length ∧
    (∀ i (hi : i < coords.length)
        (hi2 : i < (wrap_periodic_coordinates_in_z cell coords).length),
      (wrap_periodic_coordinates_in_z cell coords).get ⟨i, hi2⟩ =
        if (cell.z_max - cell.z_min) * (80 / 100) < (coords.get ⟨i, hi⟩).z
        then coords.get ⟨i, hi⟩ - cell.z_vector
        else coords.get ⟨i, hi⟩) ∧
    generate_periodic_images_xy cell coords =
      coords ++
        ((xy_shift_pairs.map (fun ij =>
          Vec3.zsmul ij.1 cell.x_vector + Vec3.zsmul ij.2 cell.y_vector)).map
            (fun sh => coords.map (fun v => v + sh))).flatten ∧
    (generate_periodic_images_xy cell coords).length = 9 * coords.length ∧
    (∀ ij : ℤ × ℤ, ij ∈ xy_shift_pairs ↔
      ((ij.1 = -1 ∨ ij.1 = 0 ∨ ij.1 = 1) ∧ (ij.2 = -1 ∨ ij.2 = 0 ∨ ij.2 = 1) ∧
        ij ≠ (0, 0))) := by
  refine ⟨?_, ?_, ?_, ?_, ?_⟩
  · simp [wrap_periodic_coordinates_in_z]
  · intro i hi hi2
    simp [wrap_periodic_coordinates_in_z, List.get_eq_getElem]
  · exact generate_periodic_images_xy_eq cell coords
  · rw [generate_periodic_images_xy_eq cell coords]
    simp [xy_shift_vectors, xy_shift_pairs]
    omega
  · intro ij
    constructor
    · intro hmem
      fin_cases hmem <;> simp
    · intro ⟨h1, h2, h3⟩
      rcases h1 with h1 | h1 | h1 <;> rcases h2 with h2 | h2 | h2 <;>
        (try exact absurd (Prod.ext h1 h2) h3) <;>
        (simp [xy_shift_pairs, Prod.ext_iff, h1, h2])

/-- Witness for C6 at the sample cell and a concrete one-particle list. -/
theorem c6_wrap_and_images_spec_witness :
    (wrap_periodic_coordinates_in_z sample_cell [⟨1, 2, 3⟩]).length = 1 ∧
    (∀ i (hi : i < ([⟨1, 2, 3⟩] : List Vec3).length)
        (hi2 : i < (wrap_periodic_coordinates_in_z sample_cell [⟨1, 2, 3⟩]).length),
      (wrap_periodic_coordinates_in_z sample_cell [⟨1, 2, 3⟩]).get ⟨i, hi2⟩ =
        if (sample_cell.z_max - sample_cell.z_min) * (80 / 100) <
            (([⟨1, 2, 3⟩] : List Vec3).get ⟨i, hi⟩).z
        then ([⟨1, 2, 3⟩] : List Vec3).get ⟨i, hi⟩ - sample_cell.z_vector
        else ([⟨1, 2, 3⟩] : List Vec3).get ⟨i, hi⟩) ∧
    generate_periodic_images_xy sample_cell [⟨1, 2, 3⟩] =
      [⟨1, 2, 3⟩] ++
        ((xy_shift_pairs.map (fun ij =>
          Vec3.zsmul ij.1 sample_cell.x_vector + Vec3.zsmul ij.2 sample_cell.y_vector)).map
            (fun sh => ([⟨1, 2, 3⟩] : List Vec3).map (fun v => v + sh))).flatten ∧
    (generate_periodic_images_xy sample_cell [⟨1, 2, 3⟩]).length = 9 * 1 ∧
    (∀ ij : ℤ × ℤ, ij ∈ xy_shift_pairs ↔
      ((ij.1 = -1 ∨ ij.1 = 0 ∨ ij.1 = 1) ∧ (ij.2 = -1 ∨ ij.2 = 0 ∨ ij.2 = 1) ∧
        ij ≠ (0, 0))) := by
  have h := c6_wrap_and_images_spec sample_cell [⟨1, 2, 3⟩]
  simpa using h

theorem Vec3.add_def (a b : Vec3) : a + b = ⟨a.x + b.x, a.y + b.y, a.z + b.z⟩ := rfl

theorem Vec3.sub_def (a b : Vec3) : a - b = ⟨a.x - b.x, a.y - b.y, a.z - b.z⟩ := rfl

theorem Vec3.normSq_sub_add (a s : Vec3) : (a - (a + s)).normSq = s.normSq := by
  simp only [Vec3.add_def, Vec3.sub_def, Vec3.normSq]
  ring

theorem norm_lt_self (v : Vec3) (c : ℚ) (hc : 0 < c) : norm_lt (v - v) c = true := by
  simp only [norm_lt, Vec3.sub_def, Vec3.normSq, Bool.and_eq_true, decide_eq_true_eq]
  constructor
  · exact hc
  · have h0 : (v.x - v.x) * (v.x - v.x) + (v.y - v.y) * (v.y - v.y) +
        (v.z - v.z) * (v.z - v.z) = 0 := by ring
    rw [h0]
    exact mul_pos hc hc

theorem countP_eraseIdx {α : Type} (p : α → Bool) :
    ∀ (l : List α) (i : ℕ) (hi : i < l.length),
      l.countP p = (l.eraseIdx i).countP p + (if p (l.get ⟨i, hi⟩) then 1 else 0) := by
  intro l
  induction l with
  | nil =>
    intro i hi
    simp at hi
  | cons a t ih =>
    intro i hi
    match i with
    | 0 => simp [List.countP_cons]
    | i + 1 =>
      have hi2 : i < t.length := by simpa using hi
      have h := ih i hi2
      simp only [List.eraseIdx_cons_succ, List.countP_cons, List.get_cons_succ]
      rw [h]
      omega

theorem generate_periodic_images_xy_length (cell : SimulationCell) (l : List Vec3) :
    (generate_periodic_images_xy cell l).length = 9 * l.length := by
  rw [generate_periodic_images_xy_eq]
  simp [xy_shift_vectors, xy_shift_pairs]
  omega

theorem generate_periodic_images_xy_get_left (cell : SimulationCell) (l : List Vec3)
    (i : ℕ) (hi : i < l.length)
    (him : i < (generate_periodic_images_xy cell l).length) :
    (generate_periodic_images_xy cell l).get ⟨i, him⟩ = l.get ⟨i, hi⟩ := by
  simp only [List.get_eq_getElem]
  rw [List.getElem_of_eq (generate_periodic_images_xy_eq cell l)]
  exact List.getElem_append_left hi

theorem generate_neighbour_list_length (cell : SimulationCell) (coords : List Vec3)
    (c : ℚ) : (generate_neighbour_list cell coords c).length = coords.length := by
  simp [generate_neighbour_list, wrap_periodic_coordinates_in_z]

theorem generate_neighbour_list_get (cell : SimulationCell) (coords : List Vec3)
    (c : ℚ) (i : ℕ) (hi : i < (generate_neighbour_list cell coords c).length)
    (hw : i < (wrap_periodic_coordinates_in_z cell coords).length) :
    (generate_neighbour_list cell coords c).get ⟨i, hi⟩ =
      (generate_periodic_images_xy cell
        (wrap_periodic_coordinates_in_z cell coords)).countP
        (fun atom =>
          norm_lt ((wrap_periodic_coordinates_in_z cell coords).get ⟨i, hw⟩ - atom) c) := by
  simp [generate_neighbour_list, List.get_eq_getElem]

/-- C8 (amended): whenever at least one particle lies strictly below the 80%
cutoff, the computed surface height is the maximum z-coordinate among the
particles strictly below the cutoff, ignoring all particles at or above it. -/
theorem c8_surface_height_spec (cell : SimulationCell) (coords : List Vec3)
    (hex : ∃ v ∈ coords, v.z < (cell.z_max - cell.z_min) * (80 / 100)) :
    ∃ m, get_surface_height cell coords = some m ∧
      (∃ v ∈ coords, v.z < (cell.z_max - cell.z_min) * (80 / 100) ∧ v.z = m) ∧
      (∀ v ∈ coords, v.z < (cell.z_max - cell.z_min) * (80 / 100) → v.z ≤ m) := by
  obtain ⟨v0, hv0, hlt⟩ := hex
  have hmem : v0.z ∈ (coords.filter
      (fun v => v.z < (cell.z_max - cell.z_min) * (80 / 100))).map Vec3.z := by
    exact List.mem_map_of_mem Vec3.z (List.mem_filter.mpr ⟨hv0, by simpa using hlt⟩)
  obtain ⟨m, hm⟩ := pymax_isSome _ (List.ne_nil_of_mem hmem)
  obtain ⟨hmmem, hub⟩ := pymax_spec _ m hm
  refine ⟨m, hm, ?_, ?_⟩
  · obtain ⟨v1, hv1, hz1⟩ := List.mem_map.mp hmmem
    obtain ⟨hv1c, hv1lt⟩ := List.mem_filter.mp hv1
    exact ⟨v1, hv1c, by simpa using hv1lt, hz1⟩
  · intro v hv hvlt
    exact hub v.z (List.mem_map_of_mem Vec3.z
      (List.mem_filter.mpr ⟨hv, by simpa using hvlt⟩))

/-- Witness for C8 at the sample cell with one particle below the cutoff. -/
theorem c8_surface_height_spec_witness :
    ∃ m, get_surface_height sample_cell [⟨0, 0, 1⟩] = some m ∧
      (∃ v ∈ ([⟨0, 0, 1⟩] : List Vec3),
        v.z < (sample_cell.z_max - sample_cell.z_min) * (80 / 100) ∧ v.z = m) ∧
      (∀ v ∈ ([⟨0, 0, 1⟩] : List Vec3),
        v.z < (sample_cell.z_max - sample_cell.z_min) * (80 / 100) → v.z ≤ m) :=
  c8_surface_height_spec sample_cell [⟨0, 0, 1⟩]
    ⟨⟨0, 0, 1⟩, by simp, by norm_num [sample_cell]⟩

/-- C8 counterexample to the claim as stated: for a non-empty coordinate list
whose only particle sits at or above the 80% cutoff (here z = 9 with cutoff
8), `get_surface_height` computes no height at all (`max([])` raises
`ValueError`), rather than returning a maximum. -/
theorem c8_surface_height_counterexample :
    get_surface_height sample_cell [⟨0, 0, 9⟩] = none := by
  norm_num [get_surface_height, sample_cell, pymax, List.filter]

/-- C10: with a strictly positive cutoff, every neighbour count returned by
`generate_neighbour_list` includes the reference particle itself (its
distance 0 to its own image entry is below the cutoff), so every count is at
least 1; a count is at most 1 exactly when no other entry of the periodic
image list lies within the cutoff; and the monatomic threshold of 1 fails
exactly when some particle has such a count. -/
theorem c10_neighbour_self_count (cell : SimulationCell) (coords : List Vec3)
    (c : ℚ) (hne : coords ≠ []) (hc : 0 < c) :
    (generate_neighbour_list cell coords c).length = coords.length ∧
    (∀ i (hw : i < (wrap_periodic_coordinates_in_z cell coords).length)
        (him : i < (generate_periodic_images_xy cell
          (wrap_periodic_coordinates_in_z cell coords)).length),
      (generate_periodic_images_xy cell
        (wrap_periodic_coordinates_in_z cell coords)).get ⟨i, him⟩ =
          (wrap_periodic_coordinates_in_z cell coords).get ⟨i, hw⟩ ∧
      norm_lt ((wrap_periodic_coordinates_in_z cell coords).get ⟨i, hw⟩ -
        (generate_periodic_images_xy cell
          (wrap_periodic_coordinates_in_z cell coords)).get ⟨i, him⟩) c = true) ∧
    (∀ i (hi : i < (generate_neighbour_list cell coords c).length),
      1 ≤ (generate_neighbour_list cell coords c).get ⟨i, hi⟩) ∧
    (∀ i (hi : i < (generate_neighbour_list cell coords c).length)
        (hw : i < (wrap_periodic_coordinates_in_z cell coords).length),
      ((generate_neighbour_list cell coords c).get ⟨i, hi⟩ ≤ 1 ↔
        ((generate_periodic_images_xy cell
            (wrap_periodic_coordinates_in_z cell coords)).eraseIdx i).countP
          (fun atom =>
            norm_lt ((wrap_periodic_coordinates_in_z cell coords).get ⟨i, hw⟩ - atom) c)
          = 0)) ∧
    (check_min_neighbours cell coords "monatomic" c = .error too_few_neighbours_msg ↔
      ∃ i, ∃ hi : i < (generate_neighbour_list cell coords c).length,
        (generate_neighbour_list cell coords c).get ⟨i, hi⟩ ≤ 1) := by
  have hwlen : (wrap_periodic_coordinates_in_z cell coords).length = coords.length := by
    simp [wrap_periodic_coordinates_in_z]
  have hnlen := generate_neighbour_list_length cell coords c
  refine ⟨hnlen, ?_, ?_, ?_, ?_⟩
  · intro i hw him
    have hself := generate_periodic_images_xy_get_left cell
      (wrap_periodic_coordinates_in_z cell coords) i hw him
    refine ⟨hself, ?_⟩
    rw [hself]
    exact norm_lt_self _ c hc
  · intro i hi
    have hw : i < (wrap_periodic_coordinates_in_z cell coords).length := by omega
    have him : i < (generate_periodic_images_xy cell
        (wrap_periodic_coordinates_in_z cell coords)).length := by
      rw [generate_periodic_images_xy_length]
      omega
    rw [generate_neighbour_list_get cell coords c i hi hw]
    have hself := generate_periodic_images_xy_get_left cell
      (wrap_periodic_coordinates_in_z cell coords) i hw him
    have hp : (fun atom =>
        norm_lt ((wrap_periodic_coordinates_in_z cell coords).get ⟨i, hw⟩ - atom) c)
        ((generate_periodic_images_xy cell
          (wrap_periodic_coordinates_in_z cell coords)).get ⟨i, him⟩) = true := by
      rw [hself]
      exact norm_lt_self _ c hc
    have hsplit := countP_eraseIdx
      (fun atom =>
        norm_lt ((wrap_periodic_coordinates_in_z cell coords).get ⟨i, hw⟩ - atom) c)
      (generate_periodic_images_xy cell (wrap_periodic_coordinates_in_z cell coords))
      i him
    rw [hsplit, if_pos hp]
    omega
  · intro i hi hw
    have him : i < (generate_periodic_images_xy cell
        (wrap_periodic_coordinates_in_z cell coords)).length := by
      rw [generate_periodic_images_xy_length]
      omega
    rw [generate_neighbour_list_get cell coords c i hi hw]
    have hself := generate_periodic_images_xy_get_left cell
      (wrap_periodic_coordinates_in_z cell coords) i hw him
    have hp : (fun atom =>
        norm_lt ((wrap_periodic_coordinates_in_z cell coords).get ⟨i, hw⟩ - atom) c)
        ((generate_periodic_images_xy cell
          (wrap_periodic_coordinates_in_z cell coords)).get ⟨i, him⟩) = true := by
      rw [hself]
      exact norm_lt_self _ c hc
    have hsplit := countP_eraseIdx
      (fun atom =>
        norm_lt ((wrap_periodic_coordinates_in_z cell coords).get ⟨i, hw⟩ - atom) c)
      (generate_periodic_images_xy cell (wrap_periodic_coordinates_in_z cell coords))
      i him
    rw [hsplit, if_pos hp]
    omega
  · have hmona : check_min_neighbours cell coords "monatomic" c =
        (if (generate_neighbour_list cell coords c).any (fun n => n ≤ 1) then
          Except.error too_few_neighbours_msg
        else Except.ok ()) := by
      simp [check_min_neighbours]
    rw [hmona]
    by_cases hany : (generate_neighbour_list cell coords c).any (fun n => n ≤ 1)
    · rw [if_pos hany]
      constructor
      · intro _
        obtain ⟨n, hn, hle⟩ := List.any_eq_true.mp hany
        obtain ⟨⟨i, hi⟩, hget⟩ := List.mem_iff_get.mp hn
        exact ⟨i, hi, by rw [hget]; exact of_decide_eq_true hle⟩
      · intro _
        rfl
    · rw [if_neg hany]
      constructor
      · intro hcontr
        cases hcontr
      · intro ⟨i, hi, hle⟩
        exact absurd (List.any_eq_true.mpr
          ⟨(generate_neighbour_list cell coords c).get ⟨i, hi⟩,
            List.get_mem _ i hi, by simpa using hle⟩) hany

/-- Witness for C10 at the sample cell, one particle, cutoff 1. -/
theorem c10_neighbour_self_count_witness :
    ([⟨0, 0, 1⟩] : List Vec3) ≠ [] ∧ (0 : ℚ) < 1 ∧
    ((generate_neighbour_list sample_cell [⟨0, 0, 1⟩] 1).length =
        ([⟨0, 0, 1⟩] : List Vec3).length ∧
      (∀ i (hw : i < (wrap_periodic_coordinates_in_z sample_cell [⟨0, 0, 1⟩]).length)
          (him : i < (generate_periodic_images_xy sample_cell
            (wrap_periodic_coordinates_in_z sample_cell [⟨0, 0, 1⟩])).length),
        (generate_periodic_images_xy sample_cell
          (wrap_periodic_coordinates_in_z sample_cell [⟨0, 0, 1⟩])).get ⟨i, him⟩ =
            (wrap_periodic_coordinates_in_z sample_cell [⟨0, 0, 1⟩]).get ⟨i, hw⟩ ∧
        norm_lt ((wrap_periodic_coordinates_in_z sample_cell [⟨0, 0, 1⟩]).get ⟨i, hw⟩ -
          (generate_periodic_images_xy sample_cell
            (wrap_periodic_coordinates_in_z sample_cell [⟨0, 0, 1⟩])).get ⟨i, him⟩) 1 =
              true) ∧
      (∀ i (hi : i < (generate_neighbour_list sample_cell [⟨0, 0, 1⟩] 1).length),
        1 ≤ (generate_neighbour_list sample_cell [⟨0, 0, 1⟩] 1).get ⟨i, hi⟩) ∧
      (∀ i (hi : i < (generate_neighbour_list sample_cell [⟨0, 0, 1⟩] 1).length)
          (hw : i < (wrap_periodic_coordinates_in_z sample_cell [⟨0, 0, 1⟩]).length),
        ((generate_neighbour_list sample_cell [⟨0, 0, 1⟩] 1).get ⟨i, hi⟩ ≤ 1 ↔
          ((generate_periodic_images_xy sample_cell
              (wrap_periodic_coordinates_in_z sample_cell [⟨0, 0, 1⟩])).eraseIdx i).countP
            (fun atom =>
              norm_lt ((wrap_periodic_coordinates_in_z sample_cell
                [⟨0, 0, 1⟩]).get ⟨i, hw⟩ - atom) 1) = 0)) ∧
      (check_min_neighbours sample_cell [⟨0, 0, 1⟩] "monatomic" 1 =
          .error too_few_neighbours_msg ↔
        ∃ i, ∃ hi : i < (generate_neighbour_list sample_cell [⟨0, 0, 1⟩] 1).length,
          (generate_neighbour_list sample_cell [⟨0, 0, 1⟩] 1).get ⟨i, hi⟩ ≤ 1)) :=
  ⟨by simp, by norm_num,
    c10_neighbour_self_count sample_cell [⟨0, 0, 1⟩] 1 (by simp) (by norm_num)⟩

theorem check_min_neighbours_known (cell : SimulationCell) (coords : List Vec3)
    (dep_type : String) (mn : ℕ) (c : ℚ)
    (hknown : (dep_type = "monatomic" ∧ mn = 1) ∨ (dep_type = "diatomic" ∧ mn = 2) ∨
      (dep_type = "molecule" ∧ mn = 0)) :
    (check_min_neighbours cell coords dep_type c = .error too_few_neighbours_msg ↔
      ∃ n ∈ generate_neighbour_list cell coords c, n ≤ mn) := by
  have hred : check_min_neighbours cell coords dep_type c =
      (if (generate_neighbour_list cell coords c).any (fun n => n ≤ mn) then
        Except.error too_few_neighbours_msg
      else Except.ok ()) := by
    rcases hknown with ⟨ht, hm⟩ | ⟨ht, hm⟩ | ⟨ht, hm⟩ <;> subst ht <;> subst hm <;>
      simp [check_min_neighbours]
  rw [hred]
  by_cases hany : (generate_neighbour_list cell coords c).any (fun n => n ≤ mn)
  · rw [if_pos hany]
    constructor
    · intro _
      obtain ⟨n, hn, hle⟩ := List.any_eq_true.mp hany
      exact ⟨n, hn, of_decide_eq_true hle⟩
    · intro _
      rfl
  · rw [if_neg hany]
    constructor
    · intro hcontr
      cases hcontr
    · intro ⟨n, hn, hle⟩
      exact absurd (List.any_eq_true.mpr ⟨n, hn, decide_eq_true hle⟩) hany

/-- C4: `check_min_neighbours` raises the too-few-neighbours error exactly
when some particle's neighbour count (over z-wrapped coordinates and their xy
periodic images) is at most the minimum for the deposition type (1 for
monatomic, 2 for diatomic, 0 for molecule); it raises a distinct error for an
unrecognised deposition type; and a single particle none of whose own xy
periodic shifts lie within the cutoff fails the monatomic check. -/
theorem c4_check_min_neighbours_spec (cell : SimulationCell) (coords : List Vec3)
    (dep_type : String) (c : ℚ) :
    (∀ mn : ℕ,
      ((dep_type = "monatomic" ∧ mn = 1) ∨ (dep_type = "diatomic" ∧ mn = 2) ∨
        (dep_type = "molecule" ∧ mn = 0)) →
      (check_min_neighbours cell coords dep_type c = .error too_few_neighbours_msg ↔
        ∃ n ∈ generate_neighbour_list cell coords c, n ≤ mn)) ∧
    (dep_type ≠ "monatomic" → dep_type ≠ "diatomic" → dep_type ≠ "molecule" →
      check_min_neighbours cell coords dep_type c = .error unrecognised_type_msg) ∧
    (∀ p : Vec3, 0 < c →
      (∀ sh ∈ xy_shift_vectors cell, ¬ sh.normSq < c * c) →
      check_min_neighbours cell [p] "monatomic" c = .error too_few_neighbours_msg) := by
  refine ⟨?_, ?_, ?_⟩
  · intro mn hmn
    exact check_min_neighbours_known cell coords dep_type mn c hmn
  · intro h1 h2 h3
    simp [check_min_neighbours, h1, h2, h3]
  · intro p hc hno
    obtain ⟨q, hwrap⟩ : ∃ q, wrap_periodic_coordinates_in_z cell [p] = [q] :=
      ⟨if (cell.z_max - cell.z_min) * (80 / 100) < p.z then p - cell.z_vector else p,
        by simp [wrap_periodic_coordinates_in_z]⟩
    have hnl : generate_neighbour_list cell [p] c =
        [(generate_periodic_images_xy cell [q]).countP
          (fun atom => norm_lt (q - atom) c)] := by
      simp [generate_neighbour_list, hwrap]
    have hcount : (generate_periodic_images_xy cell [q]).countP
        (fun atom => norm_lt (q - atom) c) = 1 := by
      rw [generate_periodic_images_xy_eq cell [q], List.countP_append]
      have h1 : List.countP (fun atom => norm_lt (q - atom) c) [q] = 1 := by
        simp [List.countP_cons, norm_lt_self q c hc]
      have h2 : (((xy_shift_vectors cell).map
          (fun sh => [q].map (fun v => v + sh))).flatten).countP
          (fun atom => norm_lt (q - atom) c) = 0 := by
        rw [List.countP_eq_zero]
        intro a ha
        obtain ⟨bl, hbl, habl⟩ := List.mem_flatten.mp ha
        obtain ⟨sh, hsh, hbleq⟩ := List.mem_map.mp hbl
        rw [← hbleq] at habl
        have haeq : a = q + sh := by simpa using habl
        subst haeq
        simp only [norm_lt, Bool.and_eq_true, decide_eq_true_eq, not_and]
        intro _
        rw [Vec3.normSq_sub_add]
        exact hno sh hsh
      rw [h1, h2]
    have hone : generate_neighbour_list cell [p] c = [1] := by
      rw [hnl, hcount]
    rw [check_min_neighbours_known cell [p] "monatomic" 1 c (Or.inl ⟨rfl, rfl⟩)]
    exact ⟨1, by rw [hone]; simp, le_refl 1⟩

/-- Witness for C4: the isolated-particle clause applied at the sample cell,
whose xy shifts all have squared length at least 100, with cutoff 1. -/
theorem c4_check_min_neighbours_spec_witness :
    check_min_neighbours sample_cell [⟨0, 0, 1⟩] "monatomic" 1 =
      .error too_few_neighbours_msg :=
  (c4_check_min_neighbours_spec sample_cell [⟨0, 0, 1⟩] "monatomic" 1).2.2 ⟨0, 0, 1⟩
    (by norm_num)
    (by
      intro sh hsh
      simp only [xy_shift_vectors, xy_shift_pairs, sample_cell, List.map_cons,
        List.map_nil, List.mem_cons, List.not_mem_nil, or_false] at hsh
      rcases hsh with h | h | h | h | h | h | h | h <;> subst h <;>
        norm_num [Vec3.zsmul, Vec3.add_def, Vec3.normSq])

/-- C5: after z-wrapping, `check_bonding_at_image` fails exactly when some
particle of the deposited species has wrapped z within (inclusive)
`bonding_distance_cutoff` of the minimum wrapped z over all particles; in
particular a deposited particle at distance 0 from the lower interface always
fails (the schema validates the cutoff positive, hence the nonnegativity
hypothesis in that clause). -/
theorem c5_check_bonding_spec (cell : SimulationCell) (coords : List Vec3)
    (elements : List String) (deposited_element : String) (c : ℚ)
    (hne : coords ≠ []) :
    ∃ mz, pymin ((wrap_periodic_coordinates_in_z cell coords).map Vec3.z) = some mz ∧
      mz ∈ (wrap_periodic_coordinates_in_z cell coords).map Vec3.z ∧
      (∀ zc ∈ (wrap_periodic_coordinates_in_z cell coords).map Vec3.z, mz ≤ zc) ∧
      (check_bonding_at_image cell coords elements deposited_element c =
          .error bonded_to_image_msg ↔
        ∃ pr ∈ elements.zip (wrap_periodic_coordinates_in_z cell coords),
          pr.1 = deposited_element ∧ |pr.2.z - mz| ≤ c) ∧
      (0 ≤ c →
        ∀ pr ∈ elements.zip (wrap_periodic_coordinates_in_z cell coords),
          pr.1 = deposited_element → pr.2.z = mz →
          check_bonding_at_image cell coords elements deposited_element c =
            .error bonded_to_image_msg) := by
  have hwne : (wrap_periodic_coordinates_in_z cell coords).map Vec3.z ≠ [] := by
    simpa [wrap_periodic_coordinates_in_z] using hne
  obtain ⟨mz, hmz⟩ := pymin_isSome _ hwne
  obtain ⟨hmem, hlb⟩ := pymin_spec _ mz hmz
  have hcheck : check_bonding_at_image cell coords elements deposited_element c =
      (if ((elements.zip (wrap_periodic_coordinates_in_z cell coords)).filterMap
          (fun pr => if pr.1 = deposited_element then some pr.2.z else none)).any
          (fun zc => |zc - mz| ≤ c) then
        Except.error bonded_to_image_msg
      else Except.ok ()) := by
    unfold check_bonding_at_image
    simp only [hmz]
  have hiff : (check_bonding_at_image cell coords elements deposited_element c =
      .error bonded_to_image_msg ↔
    ∃ pr ∈ elements.zip (wrap_periodic_coordinates_in_z cell coords),
      pr.1 = deposited_element ∧ |pr.2.z - mz| ≤ c) := by
    rw [hcheck]
    by_cases hany : ((elements.zip (wrap_periodic_coordinates_in_z cell coords)).filterMap
        (fun pr => if pr.1 = deposited_element then some pr.2.z else none)).any
        (fun zc => |zc - mz| ≤ c)
    · rw [if_pos hany]
      constructor
      · intro _
        obtain ⟨zc, hzc, hle⟩ := List.any_eq_true.mp hany
        obtain ⟨pr, hpr, hf⟩ := List.mem_filterMap.mp hzc
        by_cases hde : pr.1 = deposited_element
        · rw [if_pos hde] at hf
          have hz : pr.2.z = zc := Option.some.inj hf
          exact ⟨pr, hpr, hde, by rw [hz]; exact of_decide_eq_true hle⟩
        · rw [if_neg hde] at hf
          cases hf
      · intro _
        rfl
    · rw [if_neg hany]
      constructor
      · intro hcontr
        cases hcontr
      · intro ⟨pr, hpr, hde, hle⟩
        refine absurd (List.any_eq_true.mpr ⟨pr.2.z, ?_, decide_eq_true hle⟩) hany
        exact List.mem_filterMap.mpr ⟨pr, hpr, by rw [if_pos hde]⟩
  refine ⟨mz, hmz, hmem, hlb, hiff, ?_⟩
  intro hc0 pr hpr hde hmzeq
  refine hiff.mpr ⟨pr, hpr, hde, ?_⟩
  rw [hmzeq]
  simpa using hc0

/-- Witness for C5: a single deposited particle sits exactly at the wrapped
lower interface of the sample cell (distance 0) and the check fails. -/
theorem c5_check_bonding_spec_witness :
    check_bonding_at_image sample_cell [⟨0, 0, 1⟩] ["O"] "O" 1 =
      .error bonded_to_image_msg := by
  obtain ⟨mz, hmz, hmem, hlb, hiff, hzero⟩ :=
    c5_check_bonding_spec sample_cell [⟨0, 0, 1⟩] ["O"] "O" 1 (by simp)
  have hwrap : wrap_periodic_coordinates_in_z sample_cell [⟨0, 0, 1⟩] =
      [⟨0, 0, 1⟩] := by
    norm_num [wrap_periodic_coordinates_in_z, sample_cell]
  rw [hwrap] at hmem
  simp only [List.map_cons, List.map_nil, List.mem_cons, List.not_mem_nil,
    or_false] at hmem
  exact hzero (by norm_num) ("O", ⟨0, 0, 1⟩) (by rw [hwrap]; simp) rfl hmem.symm

theorem deposit_event_ok_lengths (settings : DepositionSettings)
    (cell : SimulationCell) (z : ℚ) (oracle : RandomOracle)
    (mc : List Vec3) (me : List String) (na : ℕ) (ii : ℕ)
    (hmol : settings.deposition_type = "molecule" →
      (mc.length = me.length ∧ me.length = na))
    (res : List Vec3 × List String × List Vec3)
    (h : deposit_event settings cell z oracle mc me na ii = .ok res) :
    res.1.length = res.2.1.length ∧ res.2.1.length = res.2.2.length ∧
      res.2.1.length = deposit_event_size settings na := by
  unfold deposit_event at h
  by_cases h1 : settings.deposition_type = "monatomic"
  · rw [if_pos h1] at h
    cases hp : random_position cell z (oracle.position_point ii) with
    | none =>
      rw [hp] at h
      exact Except.noConfusion h
    | some cpos =>
      rw [hp] at h
      cases hv : random_velocity (oracle.velocity_draws ii)
          settings.minimum_deposition_velocity with
      | error e =>
        rw [hv] at h
        exact Except.noConfusion h
      | ok v =>
        rw [hv] at h
        cases h
        simp [deposit_event_size, h1]
  · rw [if_neg h1] at h
    by_cases h2 : settings.deposition_type = "diatomic"
    · rw [if_pos h2] at h
      cases hp : random_diatomic_position cell z
          settings.diatomic_bond_length_Angstroms (oracle.position_point ii) with
      | none =>
        rw [hp] at h
        exact Except.noConfusion h
      | some cs =>
        rw [hp] at h
        cases hv : random_diatomic_velocities (oracle.velocity_draws ii)
            (oracle.rotation_draws ii) settings.diatomic_bond_length_Angstroms
            settings.minimum_deposition_velocity with
        | error e =>
          rw [hv] at h
          exact Except.noConfusion h
        | ok vs =>
          rw [hv] at h
          cases h
          simp [deposit_event_size, h1, h2]
    · rw [if_neg h2] at h
      by_cases h3 : settings.deposition_type = "molecule"
      · rw [if_pos h3] at h
        obtain ⟨hmc, hna⟩ := hmol h3
        cases hp : random_molecule_position cell z mc (oracle.position_point ii) with
        | none =>
          rw [hp] at h
          exact Except.noConfusion h
        | some cs =>
          rw [hp] at h
          cases hv : random_molecule_velocities (oracle.velocity_draws ii)
              settings.minimum_deposition_velocity na with
          | error e =>
            rw [hv] at h
            exact Except.noConfusion h
          | ok vs =>
            rw [hv] at h
            cases h
            have hcs : cs.length = mc.length := by
              unfold random_molecule_position at hp
              cases hq : random_position cell z (oracle.position_point ii) with
              | none =>
                rw [hq] at hp
                exact Option.noConfusion hp
              | some central =>
                rw [hq] at hp
                have := Option.some.inj hp
                rw [← this]
                simp
            have hvs : vs.length = na := by
              unfold random_molecule_velocities at hv
              cases hrv : random_velocity (oracle.velocity_draws ii)
                  settings.minimum_deposition_velocity with
              | error e =>
                rw [hrv] at hv
                exact Except.noConfusion hv
              | ok v =>
                rw [hrv] at hv
                have := Except.ok.inj hv
                rw [← this]
                simp
            simp only [deposit_event_size, h1, h2, if_false]
            refine ⟨?_, ?_, ?_⟩
            · rw [hcs, hmc]
            · rw [hvs, hna]
            · simpa using hna
      · rw [if_neg h3] at h
        exact Except.noConfusion h

theorem inject_loop_lengths (settings : DepositionSettings)
    (cell : SimulationCell) (z vs : ℚ) (oracle : RandomOracle)
    (mc : List Vec3) (me : List String) (na : ℕ)
    (hmol : settings.deposition_type = "molecule" →
      (mc.length = me.length ∧ me.length = na)) :
    ∀ (l : List ℕ) (acc res : List Vec3 × List String × List Vec3),
      inject_loop settings cell z vs oracle mc me na l acc = .ok res →
      acc.1.length = acc.2.1.length → acc.2.1.length = acc.2.2.length →
      (res.1.length = res.2.1.length ∧ res.2.1.length = res.2.2.length ∧
        res.2.1.length = acc.2.1.length + l.length * deposit_event_size settings na) := by
  intro l
  induction l with
  | nil =>
    intro acc res h ha1 ha2
    cases h
    simpa using ⟨ha1, ha2⟩
  | cons a t ih =>
    intro acc res h ha1 ha2
    rw [inject_loop] at h
    cases hd : deposit_event settings cell z oracle mc me na a with
    | error e =>
      rw [hd] at h
      exact Except.noConfusion h
    | ok np =>
      rw [hd] at h
      obtain ⟨he1, he2, he3⟩ :=
        deposit_event_ok_lengths settings cell z oracle mc me na a hmol np hd
      have := ih _ res h (by simp [he1, ha1]) (by simp [he2, ha2])
      obtain ⟨hr1, hr2, hr3⟩ := this
      refine ⟨hr1, hr2, ?_⟩
      rw [hr3]
      simp only [List.length_append, List.length_cons, he3]
      ring

/-- C7: particle injection preserves the alignment invariant
`len(coordinates) == len(elements) == len(velocities)` and grows the state by
`num_deposited_per_iteration` insertion events of 1 particle each for
monatomic, 2 for diatomic, and the molecule template's atom count for
molecule deposition.  (The molecule hypothesis states that the template read
by `io.read_xyz` is well-formed.) -/
theorem c7_injection_alignment (settings : DepositionSettings)
    (coords : List Vec3) (elements : List String) (velocities : List Vec3)
    (cell : SimulationCell) (vs : ℚ) (oracle : RandomOracle)
    (mc : List Vec3) (me : List String) (na : ℕ)
    (h1 : coords.length = elements.length)
    (h2 : elements.length = velocities.length)
    (hmol : settings.deposition_type = "molecule" →
      (mc.length = me.length ∧ me.length = na)) :
    ∀ res, append_new_coordinates_and_velocities settings coords elements velocities
        cell vs oracle mc me na = .ok res →
      (res.1.length = res.2.1.length ∧ res.2.1.length = res.2.2.length ∧
        res.2.1.length = elements.length +
          settings.num_deposited_per_iteration * deposit_event_size settings na ∧
        (settings.deposition_type = "monatomic" →
          res.2.1.length = elements.length + settings.num_deposited_per_iteration * 1) ∧
        (settings.deposition_type = "diatomic" →
          res.2.1.length = elements.length + settings.num_deposited_per_iteration * 2) ∧
        (settings.deposition_type = "molecule" →
          res.2.1.length = elements.length + settings.num_deposited_per_iteration * na)) := by
  intro res h
  unfold append_new_coordinates_and_velocities at h
  cases hs : get_surface_height cell coords with
  | none =>
    rw [hs] at h
    exact Except.noConfusion h
  | some surface_height =>
    rw [hs] at h
    obtain ⟨hr1, hr2, hr3⟩ := inject_loop_lengths settings cell
      (surface_height + settings.deposition_height_Angstroms) vs oracle mc me na hmol
      (List.range settings.num_deposited_per_iteration)
      (coords, elements, velocities) res h h1 h2
    simp only [List.length_range] at hr3
    refine ⟨hr1, hr2, hr3, ?_, ?_, ?_⟩
    · intro ht
      rw [hr3]
      simp [deposit_event_size, ht]
    · intro ht
      rw [hr3]
      have : settings.deposition_type ≠ "monatomic" := by
        rw [ht]
        simp
      simp [deposit_event_size, ht, this]
    · intro ht
      rw [hr3]
      have hm : settings.deposition_type ≠ "monatomic" := by
        rw [ht]
        simp
      have hd : settings.deposition_type ≠ "diatomic" := by
        rw [ht]
        simp
      simp [deposit_event_size, hm, hd]

theorem random_velocity_loop_accept (draws : ℕ → ℚ) (m : ℚ) (i fuel : ℕ)
    (hf : fuel ≠ 0) (h : m < |draws i|) :
    random_velocity_loop draws m i fuel = some (|draws i|) := by
  cases fuel with
  | zero => exact absurd rfl hf
  | succ n => rw [random_velocity_loop, if_pos h]

/-- The injection routine evaluated at the sample inputs: the surface is at
z = 1, the new particle is placed at z = 2 with velocity `(1, 1, -1)`. -/
theorem append_sample_eval :
    append_new_coordinates_and_velocities sample_settings [⟨0, 0, 1⟩] ["Si"]
      [⟨0, 0, 0⟩] sample_cell 1 sample_oracle [] [] 0 =
    .ok ([⟨0, 0, 1⟩, ⟨0, 0, 2⟩], ["Si", "O"], [⟨0, 0, 0⟩, ⟨1, 1, -1⟩]) := by
  have hsurf : get_surface_height sample_cell [⟨0, 0, 1⟩] = some 1 := by
    norm_num [get_surface_height, sample_cell, pymax, List.filter]
  have hloop : random_velocity_loop (fun _ => 1) 0 2 10000 = some 1 := by
    have := random_velocity_loop_accept (fun _ => 1) 0 2 10000 (by norm_num)
      (by norm_num)
    simpa using this
  have hvel : random_velocity (fun _ => 1) 0 = .ok ⟨1, 1, -1⟩ := by
    unfold random_velocity
    rw [hloop]
  have hev : deposit_event sample_settings sample_cell 2 sample_oracle [] [] 0 0 =
      .ok ([⟨0, 0, 2⟩], ["O"], [⟨1, 1, -1⟩]) := by
    unfold deposit_event
    norm_num [sample_settings, sample_oracle, random_position]
    rw [hvel]
  unfold append_new_coordinates_and_velocities
  rw [hsurf]
  show inject_loop sample_settings sample_cell (1 + 1) 1 sample_oracle [] [] 0
      [0] ([⟨0, 0, 1⟩], ["Si"], [⟨0, 0, 0⟩]) = _
  rw [inject_loop]
  norm_num [hev]
  rw [inject_loop]
  norm_num [Vec3.qsmul]

/-- Witness for C7 at the sample settings, oracle and state (the evaluation
`append_sample_eval` shows the success case is actually reached). -/
theorem c7_injection_alignment_witness :
    ([⟨0, 0, 1⟩] : List Vec3).length = (["Si"] : List String).length ∧
    (["Si"] : List String).length = ([⟨0, 0, 0⟩] : List Vec3).length ∧
    ∀ res, append_new_coordinates_and_velocities sample_settings [⟨0, 0, 1⟩] ["Si"]
        [⟨0, 0, 0⟩] sample_cell 1 sample_oracle [] [] 0 = .ok res →
      (res.1.length = res.2.1.length ∧ res.2.1.length = res.2.2.length ∧
        res.2.1.length = (["Si"] : List String).length +
          sample_settings.num_deposited_per_iteration *
            deposit_event_size sample_settings 0 ∧
        (sample_settings.deposition_type = "monatomic" →
          res.2.1.length = (["Si"] : List String).length +
            sample_settings.num_deposited_per_iteration * 1) ∧
        (sample_settings.deposition_type = "diatomic" →
          res.2.1.length = (["Si"] : List String).length +
            sample_settings.num_deposited_per_iteration * 2) ∧
        (sample_settings.deposition_type = "molecule" →
          res.2.1.length = (["Si"] : List String).length +
            sample_settings.num_deposited_per_iteration * 0)) :=
  ⟨rfl, rfl,
    c7_injection_alignment sample_settings [⟨0, 0, 1⟩] ["Si"] [⟨0, 0, 0⟩]
      sample_cell 1 sample_oracle [] [] 0 rfl rfl
      (by
        intro hcontr
        simp [sample_settings] at hcontr)⟩

/-- C2 counterexample to the claim as stated: with `max_total_iterations = 1`
and `max_sequential_failures = 0` and every iteration failing validation,
after the first iteration `sequential_failures = 1` exceeds its maximum of 0
yet the exit code is 0 (the max-iterations check fires first), not 1. -/
theorem c2_exit_code_counterexample :
    (DepositionPy.run DepositionPy.always_fail 1 0 ⟨1, 0, 0, "q"⟩).1 = 0 ∧
    0 < (DepositionPy.run DepositionPy.always_fail 1 0 ⟨1, 0, 0, "q"⟩).2.sequential_failures := by
  constructor <;>
    (rw [DepositionPy.run]
     norm_num [DepositionPy.next_status, DepositionPy.always_fail])

end DepositionMD
